import Mathlib

/-!
Shallow embedding of `pyod/utils/data.py`: the synthetic data generator
`generate_data`, the label-to-color mapping `_get_color_codes`, and the
evaluation summary `evaluate_print`, together with models of the external
library routines they call (`check_X_y` and `column_or_1d` from
scikit-learn, `roc_auc_score` from scikit-learn, `np.round`) and of
`precision_n_scores` (repository code that lives in
`pyod/utils/utility.py`, outside this source tree; modelled from the
specification).

Randomness is made explicit: each call site of `np.random.randn` receives a
stream `g : ℕ → ℚ` of standard-normal draws (unconstrained rationals), and
each call site of `np.random.uniform` receives a stream `u : ℕ → ℚ` of unit
draws in [0, 1), which `uniform(low, high)` maps affinely into [low, high).
Reals are modelled by rationals so that every definition is executable.
-/

namespace PyodData

/-- Decidable equality of `Except` values, so that the fallible routines can
be evaluated on concrete inputs inside proofs. -/
instance {ε α : Type} [DecidableEq ε] [DecidableEq α] :
    DecidableEq (Except ε α) := fun x y =>
  match x, y with
  | .error a, .error b =>
    if h : a = b then .isTrue (by rw [h]) else .isFalse (by simp [h])
  | .ok a, .ok b =>
    if h : a = b then .isTrue (by rw [h]) else .isFalse (by simp [h])
  | .error _, .ok _ => .isFalse (by simp)
  | .ok _, .error _ => .isFalse (by simp)

/-- Python `int(q)`: truncation toward zero. -/
def pyInt (q : ℚ) : ℤ := if 0 ≤ q then ⌊q⌋ else -⌊-q⌋

/-- Count `n_outliers = int(n_train * contamination)` (data.py lines 43, 46),
kept as an integer because Python integers are signed. -/
def n_outliersZ (n : ℕ) (c : ℚ) : ℤ := pyInt ((n : ℚ) * c)

/-- Count `n_inliers = int(n_train - n_outliers)` (data.py lines 44 and 47). -/
def n_inliersZ (n : ℕ) (c : ℚ) : ℤ := (n : ℤ) - n_outliersZ n c

/-- The outlier count as a natural number (valid once it is known nonnegative). -/
def n_outliersN (n : ℕ) (c : ℚ) : ℕ := (n_outliersZ n c).toNat

/-- The inlier count as a natural number (valid once it is known nonnegative). -/
def n_inliersN (n : ℕ) (c : ℚ) : ℕ := (n_inliersZ n c).toNat

/-- Size `n_inliers // 2` of each Gaussian sub-cluster (data.py lines 52-53
and 72-73): both sub-clusters use the same floored half. -/
def clusterSize (n : ℕ) (c : ℚ) : ℕ := n_inliersN n c / 2

/-- A sample is a point in 2-dimensional space. -/
abbrev Point := ℚ × ℚ

/-- Model of `0.3 * np.random.randn(k, 2) + center`: `k` points from an isotropic
Gaussian of standard deviation 3/10 centered at `(center, center)`; `g` is
the stream of standard-normal draws, consumed two per point. -/
def gaussianCluster (k : ℕ) (center : ℚ) (g : ℕ → ℚ) : List Point :=
  (List.range k).map fun i =>
    (3/10 * g (2 * i) + center, 3/10 * g (2 * i + 1) + center)

/-- Model of `np.random.uniform(low=lo, high=hi, size=(k, 2))`: each coordinate is
`lo + u * (hi - lo)` for a unit draw `u` drawn from [0, 1). -/
def uniformCluster (k : ℕ) (lo hi : ℚ) (u : ℕ → ℚ) : List Point :=
  (List.range k).map fun i =>
    (lo + u (2 * i) * (hi - lo), lo + u (2 * i + 1) * (hi - lo))

/-- Model of sklearn's `check_X_y` as used on data.py lines 65 and 85: it
rejects an empty sample matrix and mismatched sample/label counts, and
otherwise returns the pair unchanged. -/
def check_X_y (X : List Point) (y : List ℕ) :
    Except String (List Point × List ℕ) :=
  if X.length = 0 then .error "Found array with 0 sample(s)"
  else if X.length ≠ y.length then
    .error "Found input variables with inconsistent numbers of samples"
  else .ok (X, y)

/-- The sample matrix of one split of `generate_data` (data.py lines 52-58,
72-78): `np.r_` of two Gaussian sub-clusters of `n_inliers // 2` points each,
centered at (-2, -2) and (2, 2) (`offset = 2`), followed by `n_outliers`
uniform points with coordinates in [lo, hi). The second sub-cluster reads
the Gaussian stream after the first one. -/
def splitX (n : ℕ) (c : ℚ) (lo hi : ℚ) (g u : ℕ → ℚ) : List Point :=
  (gaussianCluster (clusterSize n c) (-2) g ++
   gaussianCluster (clusterSize n c) 2
     (fun i => g (2 * clusterSize n c + i))) ++
  uniformCluster (n_outliersN n c) lo hi u

/-- The label vector of one split (data.py lines 61-63 and 79-83):
`np.zeros([X.shape[0], 1])` with the entries from index `n_inliers` on set
to 1, then raveled to one dimension. -/
def splitY (n : ℕ) (c : ℚ) (lo hi : ℚ) (g u : ℕ → ℚ) : List ℕ :=
  (List.range (splitX n c lo hi g u).length).map fun i =>
    if i < n_inliersN n c then 0 else 1

/-- One train/test split of `generate_data`: numpy raises on a negative array
dimension (`randn(n_inliers // 2, 2)` or `uniform(..., size=(n_outliers, 2))`
with a negative count), then the samples and labels are built and validated
by `check_X_y`. -/
def makeSplit (n : ℕ) (c : ℚ) (lo hi : ℚ) (g u : ℕ → ℚ) :
    Except String (List Point × List ℕ) :=
  if n_outliersZ n c < 0 ∨ n_inliersZ n c < 0 then
    .error "negative dimensions are not allowed"
  else check_X_y (splitX n c lo hi g u) (splitY n c lo hi g u)

/-- Return value of `generate_data` (data.py lines 69 and 88): a 2-tuple when
`train_only` is set, otherwise a 4-tuple. -/
inductive GenResult where
  | trainOnly (Xtr : List Point) (ytr : List ℕ)
  | full (Xtr : List Point) (ytr : List ℕ) (Xte : List Point) (yte : List ℕ)
deriving DecidableEq

/-- The training sample matrix of a `generate_data` result. -/
def GenResult.Xtrain : GenResult → List Point
  | .trainOnly X _ => X
  | .full X _ _ _ => X

/-- The training label vector of a `generate_data` result. -/
def GenResult.ytrain : GenResult → List ℕ
  | .trainOnly _ y => y
  | .full _ y _ _ => y

/-- The test split of a `generate_data` result, when present. -/
def GenResult.testSplit : GenResult → Option (List Point × List ℕ)
  | .trainOnly _ _ => none
  | .full _ _ X y => some (X, y)

/-- Function `generate_data` (data.py lines 19-88): build and validate the training
split (uniform outlier coordinates in [-6, 6)); if `train_only`, return the
2-tuple at once, otherwise build and validate the test split (uniform
outlier coordinates in [-8, 8)) and return the 4-tuple. `g`/`u` are the
Gaussian and uniform streams of the training split, `gt`/`ut` those of the
test split. -/
def generate_data (n_train n_test : ℕ) (contamination : ℚ)
    (train_only : Bool) (g u gt ut : ℕ → ℚ) : Except String GenResult :=
  match makeSplit n_train contamination (-6) 6 g u with
  | .error e => .error e
  | .ok (Xtr, ytr) =>
    if train_only then .ok (.trainOnly Xtr ytr)
    else
      match makeSplit n_test contamination (-8) 8 gt ut with
      | .error e => .error e
      | .ok (Xte, yte) => .ok (.full Xtr ytr Xte yte)

/-- An all-zeros random stream, used to instantiate theorems at concrete
inputs (a unit draw of 0 lies in [0, 1)). -/
def zeroStream : ℕ → ℚ := fun _ => 0

/-- An all-ones random stream, used to exhibit that a result does not depend
on a given stream. -/
def oneStream : ℕ → ℚ := fun _ => 1

/-- A numpy-style label argument: either a 1-D array, or a 2-D array given
as its list of rows. -/
inductive ArrayLike (α : Type) where
  | oneD (l : List α)
  | twoD (m : List (List α))
deriving DecidableEq

/-- Model of sklearn's `column_or_1d`: a 1-D input passes through unchanged;
a 2-D input of shape (n, 1) is raveled; any other 2-D shape is rejected. -/
def column_or_1d {α : Type} (a : ArrayLike α) : Except String (List α) :=
  match a with
  | .oneD l => .ok l
  | .twoD m =>
    if m.all fun r => r.length == 1 then .ok m.flatten
    else .error "y should be a 1d array"

/-- Function `_get_color_codes` (data.py lines 91-112): coerce the labels to one
dimension, start from an all-'b' code array (`np.full`), then overwrite the
positions whose label equals 1 with 'r'. -/
def _get_color_codes (y : ArrayLike ℚ) : Except String (List Char) :=
  match column_or_1d y with
  | .error e => .error e
  | .ok l =>
    .ok (((List.replicate l.length 'b').zip l).map
          fun p => if p.2 = 1 then 'r' else p.1)

/-- Model of sklearn's `roc_auc_score` on a binary ground truth: after a
length-consistency check it fails when only one class is present, and
otherwise returns the Mann-Whitney statistic (the fraction of
positive/negative pairs ranked correctly, counting ties as 1/2), which
equals the area under the ROC curve. -/
def roc_auc_score (y s : List ℚ) : Except String ℚ :=
  if y.length ≠ s.length then
    .error "Found input variables with inconsistent numbers of samples"
  else
    let pos := ((y.zip s).filter fun p => p.1 == 1).map Prod.snd
    let neg := ((y.zip s).filter fun p => !(p.1 == 1)).map Prod.snd
    if pos.length = 0 ∨ neg.length = 0 then
      .error "Only one class present in y_true. ROC AUC score is not defined in that case."
    else
      .ok ((pos.map fun ps =>
              (neg.map fun ns =>
                 if ns < ps then (1 : ℚ) else if ns = ps then 1/2 else 0).sum).sum
            / (pos.length * neg.length))

/-- Modelled from the spec: stable insertion of a (label, score) pair into a
list already sorted by score descending; an incoming element, which precedes
the list elements in the original order, is placed before any element of
equal score. Part of the `precision_n_scores` model. -/
def insertDesc (p : ℚ × ℚ) : List (ℚ × ℚ) → List (ℚ × ℚ)
  | [] => [p]
  | q :: rest => if q.2 ≤ p.2 then p :: q :: rest else q :: insertDesc p rest

/-- Modelled from the spec: stable sort of (label, score) pairs by score
descending, ties keeping the original order. Part of the
`precision_n_scores` model. -/
def sortDesc : List (ℚ × ℚ) → List (ℚ × ℚ)
  | [] => []
  | p :: rest => insertDesc p (sortDesc rest)

/-- Modelled from the spec: `precision_n_scores` lives in
`pyod/utils/utility.py`, which is not part of this source tree. Per the
spec (section 4.3, step 3): let `n` be the number of true outliers (labels
equal to 1), rank all samples by predicted score descending with stable
ties, take the top `n`, and report the fraction of those whose label is 1. -/
def precision_n_scores (y s : List ℚ) : ℚ :=
  let n := (y.filter fun v => v == 1).length
  let top := (sortDesc (y.zip s)).take n
  ((top.filter fun p => p.1 == 1).length : ℚ) / n

/-- Round to the nearest integer with ties to even, numpy's rounding mode. -/
def roundHalfEven (q : ℚ) : ℤ :=
  if q - ⌊q⌋ < 1/2 then ⌊q⌋
  else if 1/2 < q - ⌊q⌋ then ⌊q⌋ + 1
  else if ⌊q⌋ % 2 = 0 then ⌊q⌋ else ⌊q⌋ + 1

/-- Model of `np.round(x, decimals=4)` (data.py lines 210-211). -/
def round4 (q : ℚ) : ℚ := (roundHalfEven (q * 10000) : ℚ) / 10000

/-- Drop trailing '0' characters. -/
def stripTrailingZeros (s : List Char) : List Char :=
  (s.reverse.dropWhile fun ch => ch == '0').reverse

/-- Decimal digits of `r < 10000`, zero-padded on the left to width 4. -/
def natPad4 (r : ℕ) : List Char :=
  let s := (toString r).toList
  List.replicate (4 - s.length) '0' ++ s

/-- Rendering of a rounded metric, as `str` prints a numpy float that is an
exact multiple of 1/10000: integer part, a dot, and the fractional digits
with trailing zeros removed ("1.0", "0.75", "0.5"). -/
def floatRepr (q : ℚ) : String :=
  let k : ℤ := (q * 10000).num
  let a : ℕ := k.natAbs
  let frac := stripTrailingZeros (natPad4 (a % 10000))
  (if k < 0 then "-" else "") ++ toString (a / 10000) ++ "." ++
    (if frac.isEmpty then "0" else String.mk frac)

/-- Observable outcome of `evaluate_print`: the line written to the standard
output stream, and the Python return value — the function body has no
`return` statement, so Python returns `None`, modelled as `none`. -/
structure PrintResult where
  stdout : String
  ret : Option String
deriving DecidableEq

/-- Function `evaluate_print` (data.py lines 191-211): coerce both arguments to one
dimension, compute ROC AUC and precision @ rank n, round both to 4 decimal
digits, and print the line `<name> ROC:<roc>, precision @ rank n:<prn>`;
the function itself returns `None`. -/
def evaluate_print (clf_name : String) (y y_pred : ArrayLike ℚ) :
    Except String PrintResult :=
  match column_or_1d y with
  | .error e => .error e
  | .ok yv =>
    match column_or_1d y_pred with
    | .error e => .error e
    | .ok sv =>
      match roc_auc_score yv sv with
      | .error e => .error e
      | .ok roc =>
        .ok ⟨clf_name ++ " ROC:" ++ floatRepr (round4 roc) ++
             ", precision @ rank n:" ++
             floatRepr (round4 (precision_n_scores yv sv)), none⟩

theorem gaussianCluster_length (k : ℕ) (center : ℚ) (g : ℕ → ℚ) :
    (gaussianCluster k center g).length = k := by
  simp [gaussianCluster]

theorem uniformCluster_length (k : ℕ) (lo hi : ℚ) (u : ℕ → ℚ) :
    (uniformCluster k lo hi u).length = k := by
  simp [uniformCluster]

theorem splitX_length (n : ℕ) (c : ℚ) (lo hi : ℚ) (g u : ℕ → ℚ) :
    (splitX n c lo hi g u).length = 2 * clusterSize n c + n_outliersN n c := by
  simp [splitX, gaussianCluster_length, uniformCluster_length]
  ring

theorem splitY_length (n : ℕ) (c : ℚ) (lo hi : ℚ) (g u : ℕ → ℚ) :
    (splitY n c lo hi g u).length = (splitX n c lo hi g u).length := by
  simp [splitY]

theorem count_one_range (L m : ℕ) :
    (((List.range L).map fun i => if i < m then 0 else 1).count 1) = L - m := by
  induction L with
  | zero => simp
  | succ L ih =>
    rw [List.range_succ, List.map_append, List.count_append, ih]
    by_cases h : L < m <;> simp [h, List.count_cons] <;> omega

theorem count_zero_range (L m : ℕ) :
    (((List.range L).map fun i => if i < m then 0 else 1).count 0) = min L m := by
  induction L with
  | zero => simp
  | succ L ih =>
    rw [List.range_succ, List.map_append, List.count_append, ih]
    by_cases h : L < m <;> simp [h, List.count_cons] <;> omega

theorem makeSplit_ok (n : ℕ) (c : ℚ) (lo hi : ℚ) (g u : ℕ → ℚ)
    (X : List Point) (y : List ℕ)
    (h : makeSplit n c lo hi g u = .ok (X, y)) :
    0 ≤ n_outliersZ n c ∧ 0 ≤ n_inliersZ n c ∧
    X = splitX n c lo hi g u ∧ y = splitY n c lo hi g u ∧ 1 ≤ X.length := by
  unfold makeSplit at h
  split at h
  · cases h
  · next hneg =>
    push_neg at hneg
    unfold check_X_y at h
    split at h
    · cases h
    · split at h
      · cases h
      · next h0 _ =>
        rw [Except.ok.injEq, Prod.mk.injEq] at h
        obtain ⟨hX, hy⟩ := h
        refine ⟨hneg.1, hneg.2, hX.symm, hy.symm, ?_⟩
        rw [← hX]
        omega

theorem makeSplit_builds (n : ℕ) (c : ℚ) (lo hi : ℚ) (g u : ℕ → ℚ)
    (h1 : 0 ≤ n_outliersZ n c) (h2 : 0 ≤ n_inliersZ n c)
    (h3 : 1 ≤ (splitX n c lo hi g u).length) :
    makeSplit n c lo hi g u = .ok (splitX n c lo hi g u, splitY n c lo hi g u) := by
  unfold makeSplit check_X_y
  rw [if_neg (by omega), if_neg (by omega), if_neg (by simp [splitY_length])]

theorem generate_data_ok_train (n_tr n_te : ℕ) (c : ℚ) (tOnly : Bool)
    (g u gt ut : ℕ → ℚ) (r : GenResult)
    (h : generate_data n_tr n_te c tOnly g u gt ut = .ok r) :
    makeSplit n_tr c (-6) 6 g u = .ok (r.Xtrain, r.ytrain) := by
  unfold generate_data at h
  cases hm : makeSplit n_tr c (-6) 6 g u with
  | error e => rw [hm] at h; cases h
  | ok p =>
    obtain ⟨X, y⟩ := p
    rw [hm] at h
    dsimp only at h
    cases tOnly with
    | true =>
      rw [if_pos rfl] at h
      obtain rfl := Except.ok.inj h
      rfl
    | false =>
      rw [if_neg (by simp)] at h
      cases hm2 : makeSplit n_te c (-8) 8 gt ut with
      | error e => rw [hm2] at h; dsimp only at h; cases h
      | ok q =>
        obtain ⟨Xte, yte⟩ := q
        rw [hm2] at h
        dsimp only at h
        obtain rfl := Except.ok.inj h
        rfl

theorem generate_data_trainOnly (n_tr n_te : ℕ) (c : ℚ) (g u gt ut : ℕ → ℚ)
    (X : List Point) (y : List ℕ)
    (h : makeSplit n_tr c (-6) 6 g u = .ok (X, y)) :
    generate_data n_tr n_te c true g u gt ut = .ok (.trainOnly X y) := by
  unfold generate_data
  rw [h]
  rfl

theorem generate_data_ok_full (n_tr n_te : ℕ) (c : ℚ) (g u gt ut : ℕ → ℚ)
    (Xtr : List Point) (ytr : List ℕ) (Xte : List Point) (yte : List ℕ)
    (h : generate_data n_tr n_te c false g u gt ut =
          .ok (.full Xtr ytr Xte yte)) :
    makeSplit n_tr c (-6) 6 g u = .ok (Xtr, ytr) ∧
    makeSplit n_te c (-8) 8 gt ut = .ok (Xte, yte) := by
  unfold generate_data at h
  cases hm : makeSplit n_tr c (-6) 6 g u with
  | error e => rw [hm] at h; cases h
  | ok p =>
    obtain ⟨X, y⟩ := p
    rw [hm] at h
    dsimp only at h
    rw [if_neg (by simp)] at h
    cases hm2 : makeSplit n_te c (-8) 8 gt ut with
    | error e => rw [hm2] at h; dsimp only at h; cases h
    | ok q =>
      obtain ⟨X2, y2⟩ := q
      rw [hm2] at h
      dsimp only at h
      obtain ⟨rfl, rfl, rfl, rfl⟩ := GenResult.full.inj (Except.ok.inj h)
      exact ⟨rfl, rfl⟩

theorem n_outliersZ_nonneg (n : ℕ) (c : ℚ) (hc : 0 ≤ c) :
    0 ≤ n_outliersZ n c := by
  unfold n_outliersZ pyInt
  rw [if_pos (mul_nonneg (by positivity) hc)]
  exact Int.floor_nonneg.mpr (mul_nonneg (by positivity) hc)

theorem n_outliersZ_lt (n : ℕ) (c : ℚ) (hn : 1 ≤ n) (hc : 0 ≤ c)
    (hc2 : c < 1/2) : n_outliersZ n c < n := by
  unfold n_outliersZ pyInt
  rw [if_pos (mul_nonneg (by positivity) hc)]
  rw [Int.floor_lt]
  push_cast
  have hn' : (1 : ℚ) ≤ (n : ℚ) := by exact_mod_cast hn
  nlinarith

theorem counts_split (n : ℕ) (c : ℚ) (h1 : 0 ≤ n_outliersZ n c)
    (h2 : 0 ≤ n_inliersZ n c) :
    n_outliersN n c + n_inliersN n c = n := by
  unfold n_outliersN n_inliersN n_inliersZ at *
  omega

theorem generate_data_full (n_tr n_te : ℕ) (c : ℚ) (g u gt ut : ℕ → ℚ)
    (Xtr : List Point) (ytr : List ℕ) (Xte : List Point) (yte : List ℕ)
    (h1 : makeSplit n_tr c (-6) 6 g u = .ok (Xtr, ytr))
    (h2 : makeSplit n_te c (-8) 8 gt ut = .ok (Xte, yte)) :
    generate_data n_tr n_te c false g u gt ut = .ok (.full Xtr ytr Xte yte) := by
  unfold generate_data
  rw [h1]
  dsimp only
  rw [if_neg (by simp), h2]

theorem generate_data_error (n_tr n_te : ℕ) (c : ℚ) (tOnly : Bool)
    (g u gt ut : ℕ → ℚ) (e : String)
    (h : makeSplit n_tr c (-6) 6 g u = .error e) :
    generate_data n_tr n_te c tOnly g u gt ut = .error e := by
  unfold generate_data
  rw [h]

theorem splitX_drop (n : ℕ) (c : ℚ) (lo hi : ℚ) (g u : ℕ → ℚ) :
    (splitX n c lo hi g u).drop (2 * clusterSize n c) =
      uniformCluster (n_outliersN n c) lo hi u := by
  unfold splitX
  have hlen : (gaussianCluster (clusterSize n c) (-2) g ++
      gaussianCluster (clusterSize n c) 2
        (fun i => g (2 * clusterSize n c + i))).length = 2 * clusterSize n c := by
    rw [List.length_append, gaussianCluster_length, gaussianCluster_length]
    ring
  exact List.drop_left' hlen

theorem uniformCluster_mem_bounds (k : ℕ) (lo hi : ℚ) (u : ℕ → ℚ)
    (hu : ∀ i, 0 ≤ u i ∧ u i < 1) (hlh : lo ≤ hi) :
    ∀ p ∈ uniformCluster k lo hi u,
      lo ≤ p.1 ∧ p.1 ≤ hi ∧ lo ≤ p.2 ∧ p.2 ≤ hi := by
  intro p hp
  simp only [uniformCluster, List.mem_map, List.mem_range] at hp
  obtain ⟨i, _, rfl⟩ := hp
  obtain ⟨h10, h11⟩ := hu (2 * i)
  obtain ⟨h20, h21⟩ := hu (2 * i + 1)
  have hd : (0 : ℚ) ≤ hi - lo := by linarith
  dsimp only
  refine ⟨?_, ?_, ?_, ?_⟩
  · nlinarith [mul_nonneg h10 hd]
  · nlinarith [mul_nonneg (by linarith : (0:ℚ) ≤ 1 - u (2 * i)) hd]
  · nlinarith [mul_nonneg h20 hd]
  · nlinarith [mul_nonneg (by linarith : (0:ℚ) ≤ 1 - u (2 * i + 1)) hd]

theorem outZ_A : n_outliersZ 3 (1/3) = 1 := by norm_num [n_outliersZ, pyInt]

theorem inZ_A : n_inliersZ 3 (1/3) = 2 := by rw [n_inliersZ, outZ_A]; norm_num

theorem outN_A : n_outliersN 3 (1/3) = 1 := by rw [n_outliersN, outZ_A]; rfl

theorem inN_A : n_inliersN 3 (1/3) = 2 := by rw [n_inliersN, inZ_A]; rfl

theorem cs_A : clusterSize 3 (1/3) = 1 := by rw [clusterSize, inN_A]

theorem splitX_A : splitX 3 (1/3) (-6) 6 zeroStream zeroStream =
    [(-2, -2), (2, 2), (-6, -6)] := by
  simp only [splitX, cs_A, outN_A, gaussianCluster, uniformCluster, zeroStream]
  norm_num [List.range_succ]

theorem splitY_A : splitY 3 (1/3) (-6) 6 zeroStream zeroStream = [0, 0, 1] := by
  simp only [splitY, splitX_A, inN_A]
  decide

theorem makeSplit_A : makeSplit 3 (1/3) (-6) 6 zeroStream zeroStream =
    .ok ([(-2, -2), (2, 2), (-6, -6)], [0, 0, 1]) := by
  rw [makeSplit_builds 3 (1/3) (-6) 6 zeroStream zeroStream
    (by rw [outZ_A]; norm_num) (by rw [inZ_A]; norm_num)
    (by rw [splitX_A]; norm_num), splitX_A, splitY_A]

theorem splitX_A8 : splitX 3 (1/3) (-8) 8 zeroStream zeroStream =
    [(-2, -2), (2, 2), (-8, -8)] := by
  simp only [splitX, cs_A, outN_A, gaussianCluster, uniformCluster, zeroStream]
  norm_num [List.range_succ]

theorem splitY_A8 : splitY 3 (1/3) (-8) 8 zeroStream zeroStream = [0, 0, 1] := by
  simp only [splitY, splitX_A8, inN_A]
  decide

theorem makeSplit_A8 : makeSplit 3 (1/3) (-8) 8 zeroStream zeroStream =
    .ok ([(-2, -2), (2, 2), (-8, -8)], [0, 0, 1]) := by
  rw [makeSplit_builds 3 (1/3) (-8) 8 zeroStream zeroStream
    (by rw [outZ_A]; norm_num) (by rw [inZ_A]; norm_num)
    (by rw [splitX_A8]; norm_num), splitX_A8, splitY_A8]

theorem outZ_B : n_outliersZ 5 (2/5) = 2 := by norm_num [n_outliersZ, pyInt]

theorem inZ_B : n_inliersZ 5 (2/5) = 3 := by rw [n_inliersZ, outZ_B]; norm_num

theorem outN_B : n_outliersN 5 (2/5) = 2 := by rw [n_outliersN, outZ_B]; rfl

theorem inN_B : n_inliersN 5 (2/5) = 3 := by rw [n_inliersN, inZ_B]; rfl

theorem cs_B : clusterSize 5 (2/5) = 1 := by rw [clusterSize, inN_B]

theorem splitX_B : splitX 5 (2/5) (-6) 6 zeroStream zeroStream =
    [(-2, -2), (2, 2), (-6, -6), (-6, -6)] := by
  simp only [splitX, cs_B, outN_B, gaussianCluster, uniformCluster, zeroStream]
  norm_num [List.range_succ]

theorem splitY_B : splitY 5 (2/5) (-6) 6 zeroStream zeroStream = [0, 0, 0, 1] := by
  simp only [splitY, splitX_B, inN_B]
  decide

theorem makeSplit_B : makeSplit 5 (2/5) (-6) 6 zeroStream zeroStream =
    .ok ([(-2, -2), (2, 2), (-6, -6), (-6, -6)], [0, 0, 0, 1]) := by
  rw [makeSplit_builds 5 (2/5) (-6) 6 zeroStream zeroStream
    (by rw [outZ_B]; norm_num) (by rw [inZ_B]; norm_num)
    (by rw [splitX_B]; norm_num), splitX_B, splitY_B]

theorem outZ_C : n_outliersZ 1 (1/1000) = 0 := by norm_num [n_outliersZ, pyInt]

theorem inZ_C : n_inliersZ 1 (1/1000) = 1 := by rw [n_inliersZ, outZ_C]; norm_num

theorem splitX_C_len :
    (splitX 1 (1/1000) (-6) 6 zeroStream zeroStream).length = 0 := by
  rw [splitX_length, clusterSize, show n_inliersN 1 (1/1000) = 1 by
      rw [n_inliersN, inZ_C]; rfl,
    show n_outliersN 1 (1/1000) = 0 by rw [n_outliersN, outZ_C]; rfl]

theorem makeSplit_C : makeSplit 1 (1/1000) (-6) 6 zeroStream zeroStream =
    .error "Found array with 0 sample(s)" := by
  unfold makeSplit
  rw [if_neg (by rw [outZ_C, inZ_C]; norm_num)]
  unfold check_X_y
  rw [if_pos splitX_C_len]

theorem replicate_zip (x : Char) (l : List ℚ) :
    (List.replicate l.length x).zip l = l.map fun v => (x, v) := by
  induction l with
  | nil => simp
  | cons a t ih => simp [List.replicate_succ, ih]

theorem get_color_codes_oneD (l : List ℚ) :
    _get_color_codes (.oneD l) =
      .ok (l.map fun v => if v = 1 then 'r' else 'b') := by
  unfold _get_color_codes column_or_1d
  simp [replicate_zip, Function.comp]

/-- C9: for every flat label sequence, `_get_color_codes` maps each label
equal to 1 to the outlier code 'r' and every other label to the inlier code
'b', preserving order and length (it returns exactly the pointwise image of
the input); in particular `[0, 1, 1, 0]` yields `['b', 'r', 'r', 'b']`. -/
theorem labeler_maps_codes :
    (∀ l : List ℚ, _get_color_codes (ArrayLike.oneD l) =
        .ok (l.map fun v => if v = 1 then 'r' else 'b')) ∧
    _get_color_codes (ArrayLike.oneD [0, 1, 1, 0]) = .ok ['b', 'r', 'r', 'b'] :=
  ⟨get_color_codes_oneD, by
    rw [get_color_codes_oneD]
    norm_num⟩

/-- C8: `_get_color_codes` accepts a 1-dimensional label sequence, accepts a
2-D column of shape (n, 1) by flattening it (it then behaves as on the
flattened 1-D input), and fails with a validation error on a 2-D input that
is not a single column (some row of width other than one). -/
theorem labeler_input_shape :
    (∀ l : List ℚ, ∃ cs, _get_color_codes (ArrayLike.oneD l) = .ok cs) ∧
    (∀ m : List (List ℚ), (∀ r ∈ m, r.length = 1) →
      _get_color_codes (ArrayLike.twoD m) =
        _get_color_codes (ArrayLike.oneD m.flatten)) ∧
    (∀ m : List (List ℚ), (∃ r ∈ m, r.length ≠ 1) →
      ∃ e, _get_color_codes (ArrayLike.twoD m) = .error e) := by
  refine ⟨fun l => ⟨_, get_color_codes_oneD l⟩, fun m hm => ?_, fun m hm => ?_⟩
  · have hall : (m.all fun r => r.length == 1) = true := by
      simp only [List.all_eq_true, beq_iff_eq]
      exact hm
    unfold _get_color_codes column_or_1d
    dsimp only
    rw [if_pos hall]
  · have hall : ¬ (m.all fun r => r.length == 1) = true := by
      simp only [List.all_eq_true, beq_iff_eq]
      obtain ⟨r, hr, hlen⟩ := hm
      intro hall
      exact hlen (hall r hr)
    refine ⟨"y should be a 1d array", ?_⟩
    unfold _get_color_codes column_or_1d
    dsimp only
    rw [if_neg hall]

/-- C8 witness: the shape dispatch of `_get_color_codes` evaluated at a
concrete (2, 1) column and at a concrete 1-row matrix of width 2. -/
theorem labeler_input_shape_witness :
    ((∀ r ∈ [[(1 : ℚ)], [0]], r.length = 1) ∧
      _get_color_codes (ArrayLike.twoD [[(1 : ℚ)], [0]]) =
        _get_color_codes (ArrayLike.oneD ([[(1 : ℚ)], [0]].flatten))) ∧
    ((∃ r ∈ [[(1 : ℚ), 0]], r.length ≠ 1) ∧
      ∃ e, _get_color_codes (ArrayLike.twoD [[(1 : ℚ), 0]]) = .error e) :=
  ⟨⟨by decide, labeler_input_shape.2.1 _ (by decide)⟩,
   ⟨by decide, labeler_input_shape.2.2 _ (by decide)⟩⟩

/-- C7: when the ground truth contains only one class (all labels 0, or all
labels 1), `evaluate_print` surfaces the AUC computation failure to the
caller: it produces the error raised inside `roc_auc_score` and never
produces an output line. -/
theorem evaluator_single_class_fails (clf_name : String) (y s : List ℚ)
    (hlen : y.length = s.length)
    (hcls : (∀ v ∈ y, v = 0) ∨ (∀ v ∈ y, v = 1)) :
    evaluate_print clf_name (.oneD y) (.oneD s) =
      .error "Only one class present in y_true. ROC AUC score is not defined in that case." := by
  have hroc : roc_auc_score y s =
      .error "Only one class present in y_true. ROC AUC score is not defined in that case." := by
    unfold roc_auc_score
    rw [if_neg (by omega), if_pos]
    rcases hcls with hc | hc
    · left
      simp only [List.length_eq_zero, List.map_eq_nil_iff, List.filter_eq_nil_iff]
      intro p hp
      have h1 : p.1 ∈ y := (List.of_mem_zip hp).1
      simp only [beq_iff_eq, hc p.1 h1]
      norm_num
    · right
      simp only [List.length_eq_zero, List.map_eq_nil_iff, List.filter_eq_nil_iff]
      intro p hp
      have h1 : p.1 ∈ y := (List.of_mem_zip hp).1
      simp [hc p.1 h1]
  unfold evaluate_print column_or_1d
  dsimp only
  rw [hroc]

/-- C7 witness: a two-sample all-inlier ground truth makes `evaluate_print`
fail with the undefined-AUC error. -/
theorem evaluator_single_class_fails_witness :
    ([(0 : ℚ), 0].length = [(1 : ℚ)/2, 3].length) ∧
    (∀ v ∈ [(0 : ℚ), 0], v = 0) ∧
    evaluate_print "KNN" (.oneD [0, 0]) (.oneD [1/2, 3]) =
      .error "Only one class present in y_true. ROC AUC score is not defined in that case." :=
  ⟨rfl, by decide,
   evaluator_single_class_fails "KNN" _ _ rfl (Or.inl (by decide))⟩

theorem zipE : ([0, 0, 1, 1] : List ℚ).zip [1/10, 2/5, 7/20, 4/5] =
    [(0, 1/10), (0, 2/5), (1, 7/20), (1, 4/5)] := rfl

theorem roc_concrete :
    roc_auc_score [0, 0, 1, 1] [1/10, 2/5, 7/20, 4/5] = .ok (3/4) := by
  unfold roc_auc_score
  simp only [zipE, List.filter_cons, List.filter_nil,
    show ((0:ℚ) == 1) = false from rfl, show ((1:ℚ) == 1) = true from rfl,
    Bool.not_false, Bool.not_true, if_true, if_false,
    List.map_cons, List.map_nil, List.length_cons, List.length_nil,
    List.sum_cons, List.sum_nil]
  norm_num

theorem prn_concrete :
    precision_n_scores [0, 0, 1, 1] [1/10, 2/5, 7/20, 4/5] = 1/2 := by
  unfold precision_n_scores
  simp only [zipE, List.filter_cons, List.filter_nil,
    show ((0:ℚ) == 1) = false from rfl, show ((1:ℚ) == 1) = true from rfl,
    if_true, if_false, List.length_cons, List.length_nil, sortDesc]
  norm_num [insertDesc, List.take, List.filter_cons, List.filter_nil,
    show ((0:ℚ) == 1) = false from rfl, show ((1:ℚ) == 1) = true from rfl]

theorem round4_roc : round4 (3/4 : ℚ) = 3/4 := by
  unfold round4 roundHalfEven
  norm_num

theorem round4_prn : round4 (1/2 : ℚ) = 1/2 := by
  unfold round4 roundHalfEven
  norm_num

theorem floatRepr_roc : floatRepr (3/4 : ℚ) = "0.75" := by
  unfold floatRepr
  rw [show ((3/4 : ℚ) * 10000).num = 7500 by norm_num]
  rfl

theorem floatRepr_prn : floatRepr (1/2 : ℚ) = "0.5" := by
  unfold floatRepr
  rw [show ((1/2 : ℚ) * 10000).num = 5000 by norm_num]
  rfl

/-- C4 (counterexample): at the spec's own end-to-end input, `evaluate_print`
emits the documented line `A ROC:0.75, precision @ rank n:0.5` to standard
output, but its Python return value is `None` — not the formatted string the
claim says it returns. -/
theorem evaluate_print_returns_none_cex :
    evaluate_print "A" (.oneD [0, 0, 1, 1]) (.oneD [1/10, 2/5, 7/20, 4/5]) =
      .ok ⟨"A ROC:0.75, precision @ rank n:0.5", none⟩ ∧
    (PrintResult.mk "A ROC:0.75, precision @ rank n:0.5" none).ret ≠
      some "A ROC:0.75, precision @ rank n:0.5" := by
  constructor
  · unfold evaluate_print column_or_1d
    dsimp only
    rw [roc_concrete]
    dsimp only
    rw [prn_concrete, round4_roc, round4_prn, floatRepr_roc, floatRepr_prn]
    rfl
  · simp [PrintResult.ret]

/-- C4 (amended): whenever the coerced inputs admit a defined AUC,
`evaluate_print` writes the line
`<name> ROC:<auc>, precision @ rank n:<p@n>` — both metrics rounded to 4
decimal digits — to the standard output stream, and returns `None` rather
than the string. -/
theorem evaluate_print_output (clf_name : String) (y s : List ℚ) (a : ℚ)
    (h : roc_auc_score y s = .ok a) :
    evaluate_print clf_name (.oneD y) (.oneD s) =
      .ok ⟨clf_name ++ " ROC:" ++ floatRepr (round4 a) ++
           ", precision @ rank n:" ++
           floatRepr (round4 (precision_n_scores y s)), none⟩ := by
  unfold evaluate_print column_or_1d
  dsimp only
  rw [h]

/-- C4 witness: the amended statement evaluated at the spec's end-to-end
input (AUC 3/4, precision 1/2). -/
theorem evaluate_print_output_witness :
    roc_auc_score [0, 0, 1, 1] [1/10, 2/5, 7/20, 4/5] = .ok (3/4) ∧
    evaluate_print "B" (.oneD [0, 0, 1, 1]) (.oneD [1/10, 2/5, 7/20, 4/5]) =
      .ok ⟨"B" ++ " ROC:" ++ floatRepr (round4 (3/4)) ++
           ", precision @ rank n:" ++
           floatRepr (round4 (precision_n_scores [0, 0, 1, 1]
             [1/10, 2/5, 7/20, 4/5])), none⟩ :=
  ⟨roc_concrete, evaluate_print_output "B" _ _ (3/4) roc_concrete⟩

theorem counts_facts (n : ℕ) (c : ℚ) (hn : 1 ≤ n) (hc0 : 0 < c)
    (hc2 : c < 1/2) :
    0 ≤ n_outliersZ n c ∧ 0 ≤ n_inliersZ n c ∧ n_outliersN n c < n ∧
    n_outliersN n c + n_inliersN n c = n := by
  have h1 := n_outliersZ_nonneg n c hc0.le
  have h2 := n_outliersZ_lt n c hn hc0.le hc2
  unfold n_inliersN n_outliersN n_inliersZ at *
  refine ⟨h1, by omega, by omega, by omega⟩

/-- C6: with `train_only` set, `generate_data` returns a 2-tuple carrying no
test split, and no test data is generated at all: the outcome is entirely
independent of the test-split random streams, so the test-split draws never
occur. -/
theorem train_only_no_test (n_tr n_te : ℕ) (c : ℚ)
    (g u gt ut gt' ut' : ℕ → ℚ) :
    generate_data n_tr n_te c true g u gt ut =
      generate_data n_tr n_te c true g u gt' ut' ∧
    (∀ r, generate_data n_tr n_te c true g u gt ut = .ok r →
      r.testSplit = none) := by
  constructor
  · unfold generate_data
    cases makeSplit n_tr c (-6) 6 g u with
    | error e => rfl
    | ok p => obtain ⟨X, y⟩ := p; rfl
  · intro r hr
    unfold generate_data at hr
    cases hm : makeSplit n_tr c (-6) 6 g u with
    | error e => rw [hm] at hr; cases hr
    | ok p =>
      obtain ⟨X, y⟩ := p
      rw [hm] at hr
      dsimp only at hr
      rw [if_pos rfl] at hr
      obtain rfl := Except.ok.inj hr
      rfl

/-- C6 witness: the train-only call at `n_train = 3`, contamination 1/3 is
unchanged when the test streams are replaced, and its result carries no test
split. -/
theorem train_only_no_test_witness :
    generate_data 3 500 (1/3) true zeroStream zeroStream zeroStream zeroStream
      = generate_data 3 500 (1/3) true zeroStream zeroStream oneStream oneStream ∧
    (GenResult.trainOnly [(-2, -2), (2, 2), (-6, -6)] [0, 0, 1]).testSplit
      = none :=
  ⟨(train_only_no_test 3 500 (1/3) zeroStream zeroStream zeroStream
      zeroStream oneStream oneStream).1,
   (train_only_no_test 3 500 (1/3) zeroStream zeroStream zeroStream
      zeroStream oneStream oneStream).2 _
     (generate_data_trainOnly 3 500 (1/3) zeroStream zeroStream zeroStream
       zeroStream _ _ makeSplit_A)⟩

/-- C5: every outlier sample produced by `generate_data` — the rows after the
two Gaussian sub-clusters — lies within [-6, 6] × [-6, 6] in the training
split and [-8, 8] × [-8, 8] in the test split, with certainty, for arbitrary
Gaussian draws, as long as the unit uniform draws lie in [0, 1). -/
theorem outliers_within_bounds (n_tr n_te : ℕ) (c : ℚ) (g u gt ut : ℕ → ℚ)
    (hu : ∀ i, 0 ≤ u i ∧ u i < 1) (hut : ∀ i, 0 ≤ ut i ∧ ut i < 1)
    (Xtr : List Point) (ytr : List ℕ) (Xte : List Point) (yte : List ℕ)
    (h : generate_data n_tr n_te c false g u gt ut =
      .ok (.full Xtr ytr Xte yte)) :
    (∀ p ∈ Xtr.drop (2 * clusterSize n_tr c),
      -6 ≤ p.1 ∧ p.1 ≤ 6 ∧ -6 ≤ p.2 ∧ p.2 ≤ 6) ∧
    (∀ p ∈ Xte.drop (2 * clusterSize n_te c),
      -8 ≤ p.1 ∧ p.1 ≤ 8 ∧ -8 ≤ p.2 ∧ p.2 ≤ 8) := by
  obtain ⟨h1, h2⟩ := generate_data_ok_full _ _ _ _ _ _ _ _ _ _ _ h
  obtain ⟨_, _, hX1, _, _⟩ := makeSplit_ok _ _ _ _ _ _ _ _ h1
  obtain ⟨_, _, hX2, _, _⟩ := makeSplit_ok _ _ _ _ _ _ _ _ h2
  constructor
  · rw [hX1, splitX_drop]
    exact uniformCluster_mem_bounds _ _ _ _ hu (by norm_num)
  · rw [hX2, splitX_drop]
    exact uniformCluster_mem_bounds _ _ _ _ hut (by norm_num)

/-- C5 witness: a full train/test run at `n_train = n_test = 3`,
contamination 1/3, all-zero streams: the single training outlier is
(-6, -6) ∈ [-6, 6]² and the single test outlier is (-8, -8) ∈ [-8, 8]². -/
theorem outliers_within_bounds_witness :
    (∀ i, 0 ≤ zeroStream i ∧ zeroStream i < 1) ∧
    (∀ p ∈ ([(-2, -2), (2, 2), (-6, -6)] : List Point).drop
        (2 * clusterSize 3 (1/3)),
      -6 ≤ p.1 ∧ p.1 ≤ 6 ∧ -6 ≤ p.2 ∧ p.2 ≤ 6) ∧
    (∀ p ∈ ([(-2, -2), (2, 2), (-8, -8)] : List Point).drop
        (2 * clusterSize 3 (1/3)),
      -8 ≤ p.1 ∧ p.1 ≤ 8 ∧ -8 ≤ p.2 ∧ p.2 ≤ 8) := by
  have hz : ∀ i, 0 ≤ zeroStream i ∧ zeroStream i < 1 := by
    intro i
    unfold zeroStream
    norm_num
  have h := outliers_within_bounds 3 3 (1/3) zeroStream zeroStream zeroStream
    zeroStream hz hz _ _ _ _
    (generate_data_full 3 3 (1/3) zeroStream zeroStream zeroStream zeroStream
      _ _ _ _ makeSplit_A makeSplit_A8)
  exact ⟨hz, h.1, h.2⟩

/-- C2 (counterexample): with `n_train = 3` and contamination 1/10 the
inlier count is 3, yet the two Gaussian sub-clusters hold `3 // 2 = 1` point
each — their sizes sum to 2, not to the inlier count 3, and neither
sub-cluster receives an extra sample. -/
theorem subcluster_sizes_cex :
    clusterSize 3 (1/10) = 1 ∧ n_inliersN 3 (1/10) = 3 ∧
    clusterSize 3 (1/10) + clusterSize 3 (1/10) ≠ n_inliersN 3 (1/10) := by
  have h1 : n_inliersN 3 (1/10) = 3 := by
    rw [n_inliersN, n_inliersZ,
      show n_outliersZ 3 (1/10) = 0 by norm_num [n_outliersZ, pyInt]]
    rfl
  have h2 : clusterSize 3 (1/10) = 1 := by rw [clusterSize, h1]
  exact ⟨h2, h1, by rw [h1, h2]; decide⟩

/-- C2 (amended): the inlier population is built from two Gaussian
sub-clusters of exactly `n_inliers // 2` points each — equal sizes, with no
extra sample going to the first — so the sizes sum to
`n_inliers - n_inliers % 2` (that is, to `n_inliers` only when `n_inliers`
is even; one sample is dropped when it is odd), and any returned training
matrix is exactly those two sub-clusters followed by the uniform outlier
block. -/
theorem subcluster_sizes (n_tr n_te : ℕ) (c : ℚ) (tOnly : Bool)
    (g u gt ut : ℕ → ℚ) :
    clusterSize n_tr c + clusterSize n_tr c =
      n_inliersN n_tr c - n_inliersN n_tr c % 2 ∧
    (∀ r, generate_data n_tr n_te c tOnly g u gt ut = .ok r →
      r.Xtrain =
        (gaussianCluster (clusterSize n_tr c) (-2) g ++
         gaussianCluster (clusterSize n_tr c) 2
           (fun i => g (2 * clusterSize n_tr c + i))) ++
        uniformCluster (n_outliersN n_tr c) (-6) 6 u) := by
  constructor
  · unfold clusterSize
    omega
  · intro r hr
    obtain ⟨_, _, hX, _, _⟩ := makeSplit_ok _ _ _ _ _ _ _ _
      (generate_data_ok_train _ _ _ _ _ _ _ _ _ hr)
    rw [hX]
    rfl

/-- C2 witness: the sub-cluster structure evaluated on the concrete
train-only run at `n_train = 3`, contamination 1/3. -/
theorem subcluster_sizes_witness :
    clusterSize 3 (1/3) + clusterSize 3 (1/3) =
      n_inliersN 3 (1/3) - n_inliersN 3 (1/3) % 2 ∧
    (GenResult.trainOnly [(-2, -2), (2, 2), (-6, -6)] [0, 0, 1]).Xtrain =
      (gaussianCluster (clusterSize 3 (1/3)) (-2) zeroStream ++
       gaussianCluster (clusterSize 3 (1/3)) 2
         (fun i => zeroStream (2 * clusterSize 3 (1/3) + i))) ++
      uniformCluster (n_outliersN 3 (1/3)) (-6) 6 zeroStream :=
  ⟨(subcluster_sizes 3 500 (1/3) true zeroStream zeroStream zeroStream
      zeroStream).1,
   (subcluster_sizes 3 500 (1/3) true zeroStream zeroStream zeroStream
      zeroStream).2 _
     (generate_data_trainOnly 3 500 (1/3) zeroStream zeroStream zeroStream
       zeroStream _ _ makeSplit_A)⟩

/-- C1 (counterexample): with `n_train = 5` and contamination 2/5, the
nominal outlier count `floor(5 * 2/5)` is 2, but the generated training
split has only 4 rows (not 5) and its label vector `[0, 0, 0, 1]` contains a
single 1 (not 2): the odd inlier count 3 halves down to two sub-clusters of
one point each, and the lost row shifts one outlier under the label-0
region. -/
theorem train_label_counts_cex :
    generate_data 5 500 (2/5) true zeroStream zeroStream zeroStream
      zeroStream =
      .ok (.trainOnly [(-2, -2), (2, 2), (-6, -6), (-6, -6)] [0, 0, 0, 1]) ∧
    n_outliersN 5 (2/5) = 2 ∧
    ([(0 : ℕ), 0, 0, 1].count 1 ≠ n_outliersN 5 (2/5)) ∧
    ([((-2 : ℚ), (-2 : ℚ)), (2, 2), (-6, -6), (-6, -6)].length ≠ 5) :=
  ⟨generate_data_trainOnly 5 500 (2/5) zeroStream zeroStream zeroStream
     zeroStream _ _ makeSplit_B,
   outN_B, by rw [outN_B]; decide, by decide⟩

/-- C1 (amended): for `n_train ≥ 1` and contamination in (0, 1/2), provided
the inlier count `n_train - floor(n_train * contamination)` is even, every
training split that `generate_data` returns has exactly `n_train` rows and a
label vector of length `n_train` with exactly `floor(n_train *
contamination)` entries equal to 1 and all remaining entries equal to 0; and
with `train_only` set the call does return such a split. -/
theorem train_label_counts (n_tr n_te : ℕ) (c : ℚ) (tOnly : Bool)
    (g u gt ut : ℕ → ℚ) (hn : 1 ≤ n_tr) (hc0 : 0 < c) (hc2 : c < 1/2)
    (hev : Even (n_inliersN n_tr c)) :
    (∀ r, generate_data n_tr n_te c tOnly g u gt ut = .ok r →
      r.Xtrain.length = n_tr ∧ r.ytrain.length = n_tr ∧
      r.ytrain.count 1 = n_outliersN n_tr c ∧
      r.ytrain.count 0 = n_tr - n_outliersN n_tr c) ∧
    (∃ X y, generate_data n_tr n_te c true g u gt ut =
      .ok (.trainOnly X y)) := by
  obtain ⟨hoz, hiz, hlt, hsum⟩ := counts_facts n_tr c hn hc0 hc2
  have hmod : n_inliersN n_tr c % 2 = 0 := Nat.even_iff.mp hev
  have hL : (splitX n_tr c (-6) 6 g u).length = n_tr := by
    rw [splitX_length]
    unfold clusterSize
    omega
  constructor
  · intro r hr
    obtain ⟨_, _, hX, hy, _⟩ := makeSplit_ok _ _ _ _ _ _ _ _
      (generate_data_ok_train _ _ _ _ _ _ _ _ _ hr)
    refine ⟨by rw [hX]; exact hL, by rw [hy, splitY_length]; exact hL, ?_, ?_⟩
    · rw [hy]
      unfold splitY
      rw [hL, count_one_range]
      omega
    · rw [hy]
      unfold splitY
      rw [hL, count_zero_range]
      omega
  · refine ⟨_, _, generate_data_trainOnly _ _ _ _ _ _ _ _ _
      (makeSplit_builds n_tr c (-6) 6 g u hoz hiz ?_)⟩
    rw [hL]
    exact hn

/-- C1 witness: the amended statement at `n_train = 3`, contamination 1/3
(even inlier count 2): the returned label vector `[0, 0, 1]` has one 1,
matching `floor(3 * 1/3) = 1`, and three rows. -/
theorem train_label_counts_witness :
    Even (n_inliersN 3 (1/3)) ∧
    (GenResult.trainOnly [(-2, -2), (2, 2), (-6, -6)] [0, 0, 1]).ytrain.count 1
      = n_outliersN 3 (1/3) ∧
    (∃ X y, generate_data 3 500 (1/3) true zeroStream zeroStream zeroStream
      zeroStream = .ok (.trainOnly X y)) := by
  have hev : Even (n_inliersN 3 (1/3)) := by rw [inN_A]; decide
  have h := train_label_counts 3 500 (1/3) true zeroStream zeroStream
    zeroStream zeroStream (by norm_num) (by norm_num) (by norm_num) hev
  exact ⟨hev,
    (h.1 _ (generate_data_trainOnly 3 500 (1/3) zeroStream zeroStream
      zeroStream zeroStream _ _ makeSplit_A)).2.2.1, h.2⟩

/-- C3: whenever `generate_data` returns, the training matrix has exactly
`2 * (n_inliers // 2) + n_outliers` rows, and the training label vector has
exactly `rows - n_inliers` (in truncated natural subtraction) entries equal
to 1; consequently, when `n_inliers` is odd the row count is `n_train - 1`,
and — when at least one outlier was drawn — the first uniformly drawn
outlier point carries label 0. -/
theorem actual_row_and_label_counts (n_tr n_te : ℕ) (c : ℚ) (tOnly : Bool)
    (g u gt ut : ℕ → ℚ) (r : GenResult)
    (h : generate_data n_tr n_te c tOnly g u gt ut = .ok r) :
    r.Xtrain.length = 2 * (n_inliersN n_tr c / 2) + n_outliersN n_tr c ∧
    r.ytrain.count 1 = r.Xtrain.length - n_inliersN n_tr c ∧
    (Odd (n_inliersN n_tr c) →
      r.Xtrain.length = n_tr - 1 ∧
      (1 ≤ n_outliersN n_tr c →
        r.ytrain[2 * (n_inliersN n_tr c / 2)]? = some 0)) := by
  obtain ⟨hoz, hiz, hX, hy, _⟩ := makeSplit_ok _ _ _ _ _ _ _ _
    (generate_data_ok_train _ _ _ _ _ _ _ _ _ h)
  have hsum := counts_split n_tr c hoz hiz
  have hXlen : r.Xtrain.length =
      2 * (n_inliersN n_tr c / 2) + n_outliersN n_tr c := by
    rw [hX, splitX_length]
    rfl
  refine ⟨hXlen, ?_, ?_⟩
  · rw [hy]
    unfold splitY
    rw [count_one_range, hX]
  · intro hodd
    have hmod : n_inliersN n_tr c % 2 = 1 := Nat.odd_iff.mp hodd
    refine ⟨by rw [hXlen]; omega, ?_⟩
    intro hout
    have hjlt : 2 * (n_inliersN n_tr c / 2) <
        (splitX n_tr c (-6) 6 g u).length := by
      rw [splitX_length]
      unfold clusterSize
      omega
    rw [hy]
    unfold splitY
    rw [List.getElem?_map, List.getElem?_range hjlt]
    simp only [Option.map_some']
    rw [if_pos (by omega : 2 * (n_inliersN n_tr c / 2) < n_inliersN n_tr c)]

/-- C3 witness: the run at `n_train = 5`, contamination 2/5 (odd inlier
count 3): 4 = 2 * (3 // 2) + 2 rows, which is `n_train - 1`, and the row at
index 2 — the first uniformly drawn outlier — carries label 0. -/
theorem actual_row_and_label_counts_witness :
    Odd (n_inliersN 5 (2/5)) ∧ 1 ≤ n_outliersN 5 (2/5) ∧
    (GenResult.trainOnly [(-2, -2), (2, 2), (-6, -6), (-6, -6)]
        [0, 0, 0, 1]).Xtrain.length
      = 2 * (n_inliersN 5 (2/5) / 2) + n_outliersN 5 (2/5) ∧
    (GenResult.trainOnly [(-2, -2), (2, 2), (-6, -6), (-6, -6)]
        [0, 0, 0, 1]).ytrain[2 * (n_inliersN 5 (2/5) / 2)]? = some 0 := by
  have hodd : Odd (n_inliersN 5 (2/5)) := by rw [inN_B]; decide
  have hout : 1 ≤ n_outliersN 5 (2/5) := by rw [outN_B]; decide
  have h := actual_row_and_label_counts 5 500 (2/5) true zeroStream
    zeroStream zeroStream zeroStream _
    (generate_data_trainOnly 5 500 (2/5) zeroStream zeroStream zeroStream
      zeroStream _ _ makeSplit_B)
  exact ⟨hodd, hout, h.1, (h.2.2 hodd).2 hout⟩

/-- C10 (counterexample): with `n_train = 1` and contamination 1/1000 —
`floor(n_train * contamination) = 0` — `generate_data` does not succeed:
both half-sized Gaussian sub-clusters are empty (`1 // 2 = 0`), the training
matrix has zero rows, and the shape validation rejects it. -/
theorem zero_outliers_cex :
    n_outliersZ 1 (1/1000) = 0 ∧
    generate_data 1 500 (1/1000) true zeroStream zeroStream zeroStream
      zeroStream = .error "Found array with 0 sample(s)" :=
  ⟨outZ_C, generate_data_error 1 500 (1/1000) true zeroStream zeroStream
    zeroStream zeroStream _ makeSplit_C⟩

/-- C10 (amended): when `floor(n_train * contamination) = 0` with positive
contamination and `n_train ≥ 2`, `generate_data` does not fail — the
zero-row uniform outlier draw, the concatenation and the validation all
complete — and the training labels of any returned dataset are all 0; in
particular the `train_only` call returns such a dataset. -/
theorem zero_outliers_ok (n_tr n_te : ℕ) (c : ℚ) (tOnly : Bool)
    (g u gt ut : ℕ → ℚ) (hc0 : 0 < c) (h0 : n_outliersN n_tr c = 0)
    (hn : 2 ≤ n_tr) :
    (∀ r, generate_data n_tr n_te c tOnly g u gt ut = .ok r →
      ∀ v ∈ r.ytrain, v = 0) ∧
    (∃ X y, generate_data n_tr n_te c true g u gt ut =
      .ok (.trainOnly X y)) := by
  have hoz : 0 ≤ n_outliersZ n_tr c := n_outliersZ_nonneg n_tr c hc0.le
  have hoz0 : n_outliersZ n_tr c = 0 := by
    unfold n_outliersN at h0
    omega
  have hiz : 0 ≤ n_inliersZ n_tr c := by
    unfold n_inliersZ
    omega
  have hin : n_inliersN n_tr c = n_tr := by
    unfold n_inliersN n_inliersZ
    omega
  constructor
  · intro r hr v hv
    obtain ⟨_, _, _, hy, _⟩ := makeSplit_ok _ _ _ _ _ _ _ _
      (generate_data_ok_train _ _ _ _ _ _ _ _ _ hr)
    rw [hy] at hv
    unfold splitY at hv
    simp only [List.mem_map, List.mem_range] at hv
    obtain ⟨i, hi, rfl⟩ := hv
    rw [splitX_length] at hi
    unfold clusterSize at hi
    rw [if_pos (by omega : i < n_inliersN n_tr c)]
  · refine ⟨_, _, generate_data_trainOnly _ _ _ _ _ _ _ _ _
      (makeSplit_builds n_tr c (-6) 6 g u hoz hiz ?_)⟩
    rw [splitX_length]
    unfold clusterSize
    omega

/-- C10 witness: the spec's boundary example `n_train = 10`,
contamination 1/1000 gives zero outliers and a successful train-only call. -/
theorem zero_outliers_ok_witness :
    (0 < (1/1000 : ℚ)) ∧ n_outliersN 10 (1/1000) = 0 ∧
    (∃ X y, generate_data 10 500 (1/1000) true zeroStream zeroStream
      zeroStream zeroStream = .ok (.trainOnly X y)) := by
  have h0 : n_outliersN 10 (1/1000) = 0 := by
    rw [n_outliersN,
      show n_outliersZ 10 (1/1000) = 0 by norm_num [n_outliersZ, pyInt]]
    rfl
  exact ⟨by norm_num, h0,
    (zero_outliers_ok 10 500 (1/1000) true zeroStream zeroStream zeroStream
      zeroStream (by norm_num) h0 (by norm_num)).2⟩

end PyodData
